import Mathlib

/-!
Verification of the WBOR Spinitron watchdog relay (`watchdog.py`).

The development shallowly embeds the program: Python exceptions become an
inductive `PyExc`, JSON values an inductive `Json`, and the three async
functions `fetch_latest_spin`, `send_to_rabbitmq` and `listen_to_sse`
become pure Lean functions over explicit environments describing the
behaviour of the network (HTTP responses, broker step outcomes, stream
lines).  Each function additionally produces a trace of observable events
(`Ev`) recording reads, fetches, publishes, log statements and sleeps.
-/

namespace Watchdog

/-- Python exception classes relevant to `watchdog.py`.
`clientError` is `aiohttp.ClientError` (including `ContentTypeError`),
`jsonDecodeError` is `json.JSONDecodeError`, `unicodeDecodeError` is the
`UnicodeDecodeError` raised by `bytes.decode("utf-8")` (a `ValueError`
that is *not* a `JSONDecodeError`), `amqpConnectionError` and
`channelClosed` are the two `aio_pika` exceptions named in
`send_to_rabbitmq`'s `except` clause, `timeoutError` is
`asyncio.TimeoutError`, `attributeError` models calling `.get`
on a non-dict, and `other` stands for any further `Exception`. -/
inductive PyExc where
  | clientError
  | jsonDecodeError
  | unicodeDecodeError
  | amqpConnectionError
  | channelClosed
  | timeoutError
  | attributeError
  | other
  deriving DecidableEq, Repr

/-- Log severities used by the script (`logging` levels). -/
inductive LogLevel where
  | debug
  | info
  | warning
  | error
  | critical
  deriving DecidableEq, Repr

/-- A log statement: severity plus the (static part of the) message. -/
structure LogEntry where
  level : LogLevel
  msg : String
  deriving DecidableEq, Repr

/-- JSON values, modelling the result of `response.json()` and the
`spin_data` dictionaries passed around by the script. -/
inductive Json where
  | null
  | bool (b : Bool)
  | num (n : Int)
  | str (s : String)
  | arr (xs : List Json)
  | obj (fs : List (String × Json))

mutual

/-- Boolean structural equality on `Json` (nested induction, written by
hand because `deriving DecidableEq` does not support nested inductives). -/
def Json.beq : Json → Json → Bool
  | .null, .null => true
  | .bool a, .bool b => a = b
  | .num a, .num b => a = b
  | .str a, .str b => a = b
  | .arr a, .arr b => Json.beqArr a b
  | .obj a, .obj b => Json.beqObj a b
  | _, _ => false

/-- Equality on lists of `Json`. -/
def Json.beqArr : List Json → List Json → Bool
  | [], [] => true
  | a :: as, b :: bs => Json.beq a b && Json.beqArr as bs
  | _, _ => false

/-- Equality on association lists of `Json`. -/
def Json.beqObj : List (String × Json) → List (String × Json) → Bool
  | [], [] => true
  | (k, v) :: as, (k2, v2) :: bs => k = k2 && Json.beq v v2 && Json.beqObj as bs
  | _, _ => false

end

mutual

theorem Json.eq_of_beq : ∀ {a b : Json}, Json.beq a b = true → a = b
  | .null, .null, _ => rfl
  | .bool _, .bool _, h => by
      simp only [Json.beq, decide_eq_true_eq] at h; rw [h]
  | .num _, .num _, h => by
      simp only [Json.beq, decide_eq_true_eq] at h; rw [h]
  | .str _, .str _, h => by
      simp only [Json.beq, decide_eq_true_eq] at h; rw [h]
  | .arr _, .arr _, h => by
      simp only [Json.beq] at h; rw [Json.eqArr_of_beqArr h]
  | .obj _, .obj _, h => by
      simp only [Json.beq] at h; rw [Json.eqObj_of_beqObj h]

theorem Json.eqArr_of_beqArr : ∀ {a b : List Json}, Json.beqArr a b = true → a = b
  | [], [], _ => rfl
  | _ :: _, _ :: _, h => by
      simp only [Json.beqArr, Bool.and_eq_true] at h
      rw [Json.eq_of_beq h.1, Json.eqArr_of_beqArr h.2]

theorem Json.eqObj_of_beqObj :
    ∀ {a b : List (String × Json)}, Json.beqObj a b = true → a = b
  | [], [], _ => rfl
  | (_, _) :: _, (_, _) :: _, h => by
      simp only [Json.beqObj, Bool.and_eq_true, decide_eq_true_eq] at h
      rw [h.1.1, Json.eq_of_beq h.1.2, Json.eqObj_of_beqObj h.2]

end

mutual

theorem Json.beq_refl : ∀ (a : Json), Json.beq a a = true
  | .null => rfl
  | .bool _ => by simp [Json.beq]
  | .num _ => by simp [Json.beq]
  | .str _ => by simp [Json.beq]
  | .arr xs => by simp only [Json.beq]; exact Json.beqArr_refl xs
  | .obj fs => by simp only [Json.beq]; exact Json.beqObj_refl fs

theorem Json.beqArr_refl : ∀ (a : List Json), Json.beqArr a a = true
  | [] => rfl
  | x :: xs => by
      simp only [Json.beqArr, Bool.and_eq_true]
      exact ⟨Json.beq_refl x, Json.beqArr_refl xs⟩

theorem Json.beqObj_refl : ∀ (a : List (String × Json)), Json.beqObj a a = true
  | [] => rfl
  | (_, v) :: xs => by
      simp [Json.beqObj, Json.beq_refl v, Json.beqObj_refl xs]

end

instance : DecidableEq Json := fun a b =>
  if h : Json.beq a b = true then .isTrue (Json.eq_of_beq h)
  else .isFalse (fun he => h (he ▸ Json.beq_refl a))

/-- Python truthiness of a JSON value (`if latest_spin:` / `if spin_data:`):
`None`, `False`, `0`, `""`, `[]` and `{}` are falsy, everything else truthy. -/
def Json.truthy : Json → Bool
  | .null => false
  | .bool b => b
  | .num n => n ≠ 0
  | .str s => s ≠ ""
  | .arr xs => xs ≠ []
  | .obj fs => fs ≠ []

/-- Lookup in an association list, modelling Python `dict` access
(keys in an actual `dict` are unique; the first match is returned). -/
def lookupField : List (String × Json) → String → Option Json
  | [], _ => none
  | (k, v) :: rest, key => if k = key then some v else lookupField rest key

/-- Python `spins_data.get(key)`: on a dict returns the value or `None`;
on any non-dict JSON value `.get` does not exist and Python raises
`AttributeError`. -/
def pyDictGet : Json → String → Except PyExc (Option Json)
  | .obj fs, key => .ok (lookupField fs key)
  | _, _ => .error .attributeError

/-- One hexadecimal digit, lowercase (as produced by CPython's
`json.dumps` for `\uXXXX` escapes). -/
def hexDigit (n : Nat) : Char :=
  if n < 10 then Char.ofNat (48 + n) else Char.ofNat (87 + n)

/-- Four lowercase hex digits. -/
def hex4 (n : Nat) : String :=
  ⟨[hexDigit (n / 4096 % 16), hexDigit (n / 256 % 16),
    hexDigit (n / 16 % 16), hexDigit (n % 16)]⟩

/-- Escaping of one character inside a JSON string literal, following
CPython `json.dumps` defaults (`ensure_ascii=True`): the two mandatory
escapes, the short control escapes, printable ASCII verbatim, and
`\uXXXX` (with surrogate pairs above U+FFFF) for everything else. -/
def escChar (c : Char) : String :=
  if c = '"' then "\\\""
  else if c = '\\' then "\\\\"
  else if c = '\n' then "\\n"
  else if c = '\t' then "\\t"
  else if c = '\r' then "\\r"
  else if c.toNat = 8 then "\\b"
  else if c.toNat = 12 then "\\f"
  else if 32 ≤ c.toNat ∧ c.toNat ≤ 126 then String.singleton c
  else if c.toNat < 65536 then "\\u" ++ hex4 c.toNat
  else
    "\\u" ++ hex4 (55296 + (c.toNat - 65536) / 1024) ++
    "\\u" ++ hex4 (56320 + (c.toNat - 65536) % 1024)

/-- A JSON string literal with quotes and escapes. -/
def jsonStr (s : String) : String :=
  "\"" ++ String.join (s.data.map escChar) ++ "\""

mutual

/-- Serialization as by `json.dumps` with CPython's default separators
(`", "` between items, `": "` between key and value). -/
def Json.dumps : Json → String
  | .null => "null"
  | .bool true => "true"
  | .bool false => "false"
  | .num n => toString n
  | .str s => jsonStr s
  | .arr xs => "[" ++ Json.dumpsArr xs ++ "]"
  | .obj fs => "\x7b" ++ Json.dumpsObj fs ++ "\x7d"

/-- Comma-separated serialization of array elements. -/
def Json.dumpsArr : List Json → String
  | [] => ""
  | [x] => Json.dumps x
  | x :: xs => Json.dumps x ++ ", " ++ Json.dumpsArr xs

/-- Comma-separated serialization of object fields. -/
def Json.dumpsObj : List (String × Json) → String
  | [] => ""
  | [(k, v)] => jsonStr k ++ ": " ++ Json.dumps v
  | (k, v) :: fs => jsonStr k ++ ": " ++ Json.dumps v ++ ", " ++ Json.dumpsObj fs

end

/-- UTF-8 encoding of one character (`str.encode("utf-8")`), as a list of
byte values. -/
def utf8Char (c : Char) : List Nat :=
  let n := c.toNat
  if n < 128 then [n]
  else if n < 2048 then [192 + n / 64, 128 + n % 64]
  else if n < 65536 then [224 + n / 4096, 128 + n / 64 % 64, 128 + n % 64]
  else [240 + n / 262144, 128 + n / 4096 % 64, 128 + n / 64 % 64, 128 + n % 64]

/-- UTF-8 encoding of a string as a byte list. -/
def utf8Encode (s : String) : List Nat :=
  s.data.foldr (fun c acc => utf8Char c ++ acc) []

/-- Character-level core of `str.strip()`:
Python `str.strip()` first drops leading whitespace. -/
def stripChars (l : List Char) : List Char :=
  ((l.dropWhile Char.isWhitespace).reverse.dropWhile Char.isWhitespace).reverse

/-- Python `str.strip()` (whitespace modelled by `Char.isWhitespace`;
the marker characters are non-whitespace under both notions). -/
def pyStrip (s : String) : String := ⟨stripChars s.data⟩

/-- Python substring containment `sub in s`. -/
def pyContains (s sub : String) : Prop := sub.data <:+: s.data

instance (s sub : String) : Decidable (pyContains s sub) :=
  List.decidableInfix sub.data s.data

/-- The update-signal marker tested by `listen_to_sse`
(line 129 of `watchdog.py`). -/
def markerStr : String := "Spin outdated - Update needed."

/-- Outcome of the GET issued by `fetch_latest_spin`:
either `session.get` raises `aiohttp.ClientError` (`httpError`), or a
response arrives with a status code and — consulted only when the status
is 200, since that is the only branch calling `response.json()` — the
result of parsing the body (`.error e` when `response.json()` raises). -/
inductive FetchOutcome where
  | httpError
  | response (status : Nat) (body : Except PyExc Json)

/-- The function `fetch_latest_spin` (lines 47–65 of `watchdog.py`): returns the
latest spin or `None` (or propagates an exception), together with the
log statements issued. -/
def fetchLatestSpin (fo : FetchOutcome) : Except PyExc (Option Json) × List LogEntry :=
  match fo with
  | .httpError => (.error .clientError, [])
  | .response status body =>
    if status = 200 then
      match body with
      | .error e => (.error e, [])
      | .ok spinsData =>
        match pyDictGet spinsData "spin-0" with
        | .error e => (.error e, [])
        | .ok latestSpin =>
          match latestSpin with
          | some v =>
            if v.truthy then (.ok (some v), [⟨.info, "Latest spin"⟩])
            else (.ok none, [⟨.warning, "No latest spin found in response."⟩])
          | none => (.ok none, [⟨.warning, "No latest spin found in response."⟩])
    else (.ok none, [⟨.critical, "Failed to fetch spin data"⟩])

/-- Configuration read from the environment. -/
structure Config where
  host : String
  user : String
  pass : String
  exchange : String
  routingKey : String

/-- Behaviour of the broker during one `send_to_rabbitmq` call: for each
of the four awaited steps, `none` means the step succeeds and
`some e` means it raises `e`. -/
structure BrokerEnv where
  connect : Option PyExc
  openChannel : Option PyExc
  declareEx : Option PyExc
  publish : Option PyExc

/-- Observable events of an execution. -/
inductive Ev where
  | connectAttempt
  | readLine (i : Nat)
  | fetchCall
  | sendCall (record : Json)
  | connected
  | channelOpened
  | exchangeDeclared (name : String) (durable : Bool)
  | published (body : List Nat) (exchange : String) (routingKey : String)
  | connClosed
  | log (lvl : LogLevel) (msg : String)
  | sleep (n : Nat)
  deriving DecidableEq

/-- The two exception classes caught by `send_to_rabbitmq`'s `except`
clause (line 92–95 of `watchdog.py`). -/
def pubCaught (e : PyExc) : Bool :=
  match e with
  | .amqpConnectionError => true
  | .channelClosed => true
  | _ => false

/-- The function `send_to_rabbitmq` (lines 68–96 of `watchdog.py`): connect, open a
channel, declare the durable topic exchange, publish
`json.dumps(spin_data).encode("utf-8")` with the configured routing key,
log, and close the connection — `connection.close()` is the last
statement *inside* the `try`, so it only runs when every earlier step
succeeded.  `AMQPConnectionError` and `ChannelClosed` are caught and
logged critical; any other exception propagates. -/
def sendToRabbitmq (be : BrokerEnv) (cfg : Config) (spinData : Json) :
    List Ev × Option PyExc :=
  let tryBody : List Ev × Option PyExc :=
    match be.connect with
    | some e => ([], some e)
    | none =>
      match be.openChannel with
      | some e => ([Ev.connected], some e)
      | none =>
        match be.declareEx with
        | some e => ([Ev.connected, Ev.channelOpened], some e)
        | none =>
          match be.publish with
          | some e =>
            ([Ev.connected, Ev.channelOpened,
              Ev.exchangeDeclared cfg.exchange true], some e)
          | none =>
            ([Ev.connected, Ev.channelOpened,
              Ev.exchangeDeclared cfg.exchange true,
              Ev.published (utf8Encode (Json.dumps spinData))
                cfg.exchange cfg.routingKey,
              Ev.log .info "Published spin data to RabbitMQ",
              Ev.connClosed], none)
  match tryBody with
  | (evs, none) => (evs, none)
  | (evs, some e) =>
    if pubCaught e then
      (evs ++ [Ev.log .critical "Error publishing to RabbitMQ"], none)
    else (evs, some e)

/-- The exceptions caught by the per-line handler in `listen_to_sse`
(line 140 of `watchdog.py`): `aiohttp.ClientError` and
`json.JSONDecodeError` — notably *not* `UnicodeDecodeError`. -/
def innerCaught (e : PyExc) : Bool :=
  match e with
  | .clientError => true
  | .jsonDecodeError => true
  | _ => false

/-- One line of the SSE response body, as handed to the loop at line 121:
either bytes that decode to the string `s` (with `s = ""` exactly for the
empty, falsy, line), or non-empty bytes whose UTF-8 decoding raises. -/
inductive RawLine where
  | text (s : String)
  | badUtf8

/-- The events always emitted by the marker branch before its outcome is
known: the "signal received" log, the call into `fetch_latest_spin`, and
the log statements the fetch itself issues. -/
def sigEvs (fo : FetchOutcome) : List Ev :=
  Ev.log .info "Received spin update signal. Fetching latest spin..." ::
    Ev.fetchCall :: (fetchLatestSpin fo).2.map (fun l => Ev.log l.level l.msg)

/-- The body of `listen_to_sse`'s marker branch (lines 130–139): log,
fetch, and — when a truthy record came back — publish; otherwise warn. -/
def onSignal (fo : FetchOutcome) (be : BrokerEnv) (cfg : Config) :
    List Ev × Option PyExc :=
  match (fetchLatestSpin fo).1 with
  | .error e => (sigEvs fo, some e)
  | .ok none =>
    (sigEvs fo ++ [Ev.log .warning "No valid spin data received after SSE update."], none)
  | .ok (some v) =>
    if v.truthy then
      (sigEvs fo ++ Ev.sendCall v :: (sendToRabbitmq be cfg v).1,
        (sendToRabbitmq be cfg v).2)
    else
      (sigEvs fo ++ [Ev.log .warning "No valid spin data received after SSE update."], none)

/-- The `try`-body of the per-line loop (lines 125–139): skip falsy
lines, decode (possibly raising `UnicodeDecodeError`), strip, test the
marker substring, and run the signal branch on a match. -/
def lineBody (line : RawLine) (fo : FetchOutcome) (be : BrokerEnv) (cfg : Config) :
    List Ev × Option PyExc :=
  match line with
  | .badUtf8 => ([], some .unicodeDecodeError)
  | .text s =>
    if s = "" then ([], none)
    else if pyContains (pyStrip s) markerStr then onSignal fo be cfg
    else ([], none)

/-- One iteration of the per-line loop including its `except` clause
(lines 124–142): `ClientError` and `JSONDecodeError` are logged
(`logger.exception`, severity ERROR) and swallowed; anything else
propagates out of the loop. -/
def processLine (line : RawLine) (fo : FetchOutcome) (be : BrokerEnv) (cfg : Config) :
    List Ev × Option PyExc :=
  match lineBody line fo be cfg with
  | (evs, none) => (evs, none)
  | (evs, some e) =>
    if innerCaught e then
      (evs ++ [Ev.log .error "Error processing SSE message"], none)
    else (evs, some e)

/-- Number of `fetchCall` events in a trace. -/
def countFetch (evs : List Ev) : Nat :=
  evs.countP fun e => match e with | .fetchCall => true | _ => false

/-- Number of `sendCall` events in a trace. -/
def countSend (evs : List Ev) : Nat :=
  evs.countP fun e => match e with | .sendCall _ => true | _ => false

/-- The `async for` loop over the stream lines (lines 121–142): `i` is
the index of the next line, `fi`/`pi` count the fetch/publish calls made
so far and index into the environments `F`/`B` that describe the network
behaviour of each successive fetch and publish.  An exception escaping
the per-line handler ends the loop (and the session). -/
def processLines (cfg : Config) :
    List RawLine → (Nat → FetchOutcome) → (Nat → BrokerEnv) → Nat → Nat → Nat →
    List Ev × Option PyExc
  | [], _, _, _, _, _ => ([], none)
  | l :: ls, F, B, i, fi, pi =>
    match processLine l (F fi) (B pi) cfg with
    | (evs, some e) => (Ev.readLine i :: evs, some e)
    | (evs, none) =>
      (Ev.readLine i :: evs ++
        (processLines cfg ls F B (i + 1) (fi + countFetch evs) (pi + countSend evs)).1,
       (processLines cfg ls F B (i + 1) (fi + countFetch evs) (pi + countSend evs)).2)

/-- Behaviour of the network during one streaming session: the outcome of
connecting to the SSE endpoint, the lines delivered before the stream
ends, and the per-call fetch and broker environments. -/
structure SessionEnv where
  connect : Except PyExc Nat
  lines : List RawLine
  fetches : Nat → FetchOutcome
  brokers : Nat → BrokerEnv

/-- The outer `except` clauses of `listen_to_sse` (lines 144–149):
`ClientError` → error; `AMQPError` (covering both modelled aio_pika
exceptions) or `asyncio.TimeoutError` → critical; any other `Exception`
→ error. -/
def handleOuter (e : PyExc) : List Ev :=
  match e with
  | .clientError => [Ev.log .error "SSE connection error"]
  | .amqpConnectionError => [Ev.log .critical "Unexpected error in SSE listener"]
  | .channelClosed => [Ev.log .critical "Unexpected error in SSE listener"]
  | .timeoutError => [Ev.log .critical "Unexpected error in SSE listener"]
  | _ => [Ev.log .error "Unexpected exception"]

/-- One iteration of `listen_to_sse`'s `while True` loop (lines 101–152):
attempt the stream connection; on a non-200 status log, sleep 5 and
`continue`; otherwise consume the lines, route any escaping exception to
the outer handlers, and finish with the reconnect log and
`asyncio.sleep(5)`. -/
def listenIteration (cfg : Config) (env : SessionEnv) : List Ev :=
  match env.connect with
  | .error e =>
    Ev.connectAttempt :: handleOuter e ++
      [Ev.log .info "Reconnecting to SSE stream in 5 seconds...", Ev.sleep 5]
  | .ok status =>
    if status = 200 then
      match processLines cfg env.lines env.fetches env.brokers 0 0 0 with
      | (evs, exc) =>
        Ev.connectAttempt :: Ev.log .info "Connected to SSE stream successfully." ::
          evs ++ (match exc with | none => [] | some e => handleOuter e) ++
          [Ev.log .info "Reconnecting to SSE stream in 5 seconds...", Ev.sleep 5]
    else
      [Ev.connectAttempt, Ev.log .error "Failed to connect to SSE stream", Ev.sleep 5]

/-- The supervisor loop (`while True`), unrolled over a list of session
environments: each element describes the network behaviour of one
iteration. -/
def runListener (cfg : Config) : List SessionEnv → List Ev
  | [] => []
  | env :: rest => listenIteration cfg env ++ runListener cfg rest

/-- Number of stream-connection attempts in a trace. -/
def countConnect (evs : List Ev) : Nat :=
  evs.countP fun e => match e with | .connectAttempt => true | _ => false

/-- The sleep events of a trace. -/
def sleepEvs (evs : List Ev) : List Ev :=
  evs.filter fun e => match e with | .sleep _ => true | _ => false

/-- The first broker step of a `send_to_rabbitmq` call that raises, if
any (the later steps are never reached once one raises). -/
def firstFailure (be : BrokerEnv) : Option PyExc :=
  match be.connect with
  | some e => some e
  | none =>
    match be.openChannel with
    | some e => some e
    | none =>
      match be.declareEx with
      | some e => some e
      | none => be.publish

/-- Sample configuration used in concrete instantiations. -/
def cfg0 : Config := ⟨"rabbitmq", "user", "secret", "spin-exchange", "spin-key"⟩

/-- The spec's sample record. -/
def rec0 : Json := .obj [("artist", .str "A"), ("song", .str "B")]

/-- A fetch environment delivering status 200 with `rec0` under `"spin-0"`. -/
def okFetch0 : FetchOutcome := .response 200 (.ok (.obj [("spin-0", rec0)]))

/-- A broker on which every step succeeds. -/
def okBroker0 : BrokerEnv := ⟨none, none, none, none⟩

/-- A broker that accepts the connection, channel and declare but whose
publish raises `ChannelClosed`. -/
def failBroker0 : BrokerEnv := ⟨none, none, none, some .channelClosed⟩

/-- Sanity check: the serialization of the spec's sample record. -/
theorem dumps_sample :
    Json.dumps (.obj [("artist", .str "A"), ("song", .str "B")]) =
      "\x7b\"artist\": \"A\", \"song\": \"B\"\x7d" := rfl

/-- Events that `send_to_rabbitmq` can emit. -/
def pubEv (e : Ev) : Bool :=
  match e with
  | .connected => true
  | .channelOpened => true
  | .exchangeDeclared _ _ => true
  | .published _ _ _ => true
  | .connClosed => true
  | .log _ _ => true
  | _ => false

/-- Events a stream session can emit (everything except the supervisor's
connection attempts and sleeps). -/
def sessionEv (e : Ev) : Bool :=
  match e with
  | .connectAttempt => false
  | .sleep _ => false
  | _ => true

/-! ### Helper lemmas about stripping and substring containment -/

theorem infix_dropWhile (p : Char → Bool) :
    ∀ (sub l : List Char) (c : Char), sub.head? = some c → p c = false →
      sub <:+: l → sub <:+: l.dropWhile p := by
  intro sub l
  induction l with
  | nil =>
    intro c hc _ h
    cases sub with
    | nil => simp at hc
    | cons a as => exact absurd (List.eq_nil_of_infix_nil h) (by simp)
  | cons x xs ih =>
    intro c hc hpc h
    by_cases hx : p x
    · rw [List.dropWhile_cons_of_pos hx]
      rcases List.infix_cons_iff.mp h with hpre | hinf
      · cases sub with
        | nil => simp at hc
        | cons a as =>
          obtain ⟨ha, _⟩ := List.cons_prefix_cons.mp hpre
          simp only [List.head?_cons, Option.some.injEq] at hc
          rw [hc] at ha
          rw [ha] at hpc
          exact absurd hx (by simp [hpc])
      · exact ih c hc hpc hinf
    · rw [List.dropWhile_cons_of_neg hx]
      exact h

theorem stripChars_within (l : List Char) : stripChars l <:+: l := by
  unfold stripChars
  have h1 : l.dropWhile Char.isWhitespace <:+ l := List.dropWhile_suffix _
  have h2 : (l.dropWhile Char.isWhitespace).reverse.dropWhile Char.isWhitespace <:+
      (l.dropWhile Char.isWhitespace).reverse := List.dropWhile_suffix _
  have h3 : ((l.dropWhile Char.isWhitespace).reverse.dropWhile Char.isWhitespace).reverse <+:
      l.dropWhile Char.isWhitespace := by
    rw [← List.reverse_suffix]
    simpa using h2
  exact (h3.isInfix).trans h1.isInfix

theorem marker_head : markerStr.data.head? = some 'S' := rfl

theorem marker_last : markerStr.data.getLast? = some '.' := by decide

theorem contains_strip_iff (s : String) :
    pyContains (pyStrip s) markerStr ↔ pyContains s markerStr := by
  constructor
  · intro h
    exact h.trans (stripChars_within s.data)
  · intro h
    unfold pyContains at h ⊢
    unfold pyStrip stripChars
    have hS : ('S'.isWhitespace : Bool) = false := by decide
    have hdot : ('.'.isWhitespace : Bool) = false := by decide
    have s1 : markerStr.data <:+: s.data.dropWhile Char.isWhitespace :=
      infix_dropWhile _ _ _ _ marker_head hS h
    have s2 : markerStr.data.reverse <:+: (s.data.dropWhile Char.isWhitespace).reverse :=
      List.reverse_infix.mpr s1
    have hrev : markerStr.data.reverse.head? = some '.' := by
      rw [List.head?_reverse]; exact marker_last
    have s3 : markerStr.data.reverse <:+:
        (s.data.dropWhile Char.isWhitespace).reverse.dropWhile Char.isWhitespace :=
      infix_dropWhile _ _ _ _ hrev hdot s2
    have s4 := List.reverse_infix.mpr s3
    simpa using s4

/-! ### Helper lemmas about traces -/

theorem send_events (be : BrokerEnv) (cfg : Config) (r : Json) :
    ∀ e ∈ (sendToRabbitmq be cfg r).1, pubEv e = true := by
  rcases be with ⟨c, o, d, p⟩
  unfold sendToRabbitmq
  cases c <;> cases o <;> cases d <;> cases p <;> (try dsimp only) <;> (try split) <;>
    intro e he <;> (try simp only [List.cons_append, List.nil_append] at he) <;>
    fin_cases he <;> rfl

theorem countFetch_send (be : BrokerEnv) (cfg : Config) (r : Json) :
    countFetch (sendToRabbitmq be cfg r).1 = 0 := by
  rw [countFetch, List.countP_eq_zero]
  intro e he
  have := send_events be cfg r e he
  cases e <;> simp_all [pubEv]

theorem countSend_send (be : BrokerEnv) (cfg : Config) (r : Json) :
    countSend (sendToRabbitmq be cfg r).1 = 0 := by
  rw [countSend, List.countP_eq_zero]
  intro e he
  have := send_events be cfg r e he
  cases e <;> simp_all [pubEv]

theorem sendCall_not_mem_send (be : BrokerEnv) (cfg : Config) (r v : Json) :
    Ev.sendCall v ∉ (sendToRabbitmq be cfg r).1 := by
  intro h
  have := send_events be cfg r _ h
  simp [pubEv] at this

theorem sleep_not_mem_send (be : BrokerEnv) (cfg : Config) (r : Json) (n : Nat) :
    Ev.sleep n ∉ (sendToRabbitmq be cfg r).1 := by
  intro h
  have := send_events be cfg r _ h
  simp [pubEv] at this

theorem countFetch_logMap (ls : List LogEntry) :
    countFetch (ls.map fun l => Ev.log l.level l.msg) = 0 := by
  rw [countFetch, List.countP_eq_zero]
  intro e he
  simp only [List.mem_map] at he
  obtain ⟨l, _, rfl⟩ := he
  simp

theorem countSend_logMap (ls : List LogEntry) :
    countSend (ls.map fun l => Ev.log l.level l.msg) = 0 := by
  rw [countSend, List.countP_eq_zero]
  intro e he
  simp only [List.mem_map] at he
  obtain ⟨l, _, rfl⟩ := he
  simp

theorem countFetch_logTail (fo : FetchOutcome) (more : List Ev)
    (hm : countFetch more = 0) :
    countFetch ((fetchLatestSpin fo).2.map (fun l => Ev.log l.level l.msg) ++ more) = 0 := by
  rw [countFetch, List.countP_append]
  have h1 := countFetch_logMap (fetchLatestSpin fo).2
  rw [countFetch] at h1
  rw [countFetch] at hm
  simp [h1, hm]

theorem onSignal_shape (fo : FetchOutcome) (be : BrokerEnv) (cfg : Config) :
    ∃ tail, (onSignal fo be cfg).1 =
      Ev.log .info "Received spin update signal. Fetching latest spin..." ::
        Ev.fetchCall :: tail ∧ countFetch tail = 0 := by
  unfold onSignal
  rcases hfr : (fetchLatestSpin fo).1 with e | v
  · exact ⟨_, rfl, countFetch_logMap _⟩
  · rcases v with _ | v
    · refine ⟨(fetchLatestSpin fo).2.map (fun l => Ev.log l.level l.msg) ++
        [Ev.log .warning "No valid spin data received after SSE update."], rfl, ?_⟩
      exact countFetch_logTail fo _ rfl
    · by_cases hv : v.truthy
      · refine ⟨(fetchLatestSpin fo).2.map (fun l => Ev.log l.level l.msg) ++
          Ev.sendCall v :: (sendToRabbitmq be cfg v).1, by simp [hv, sigEvs], ?_⟩
        refine countFetch_logTail fo _ ?_
        rw [countFetch, List.countP_cons]
        have h2 := countFetch_send be cfg v
        rw [countFetch] at h2
        simp [h2]
      · refine ⟨(fetchLatestSpin fo).2.map (fun l => Ev.log l.level l.msg) ++
          [Ev.log .warning "No valid spin data received after SSE update."],
          by simp [hv, sigEvs], ?_⟩
        exact countFetch_logTail fo _ rfl

theorem processLine_marker_shape (s : String) (fo : FetchOutcome) (be : BrokerEnv)
    (cfg : Config) (hs : ¬s = "") (h : pyContains (pyStrip s) markerStr) :
    ∃ tail, (processLine (.text s) fo be cfg).1 =
      Ev.log .info "Received spin update signal. Fetching latest spin..." ::
        Ev.fetchCall :: tail ∧ countFetch tail = 0 := by
  obtain ⟨tail, hshape, hcount⟩ := onSignal_shape fo be cfg
  unfold processLine lineBody
  simp only [if_neg hs, if_pos h]
  rcases hsig : onSignal fo be cfg with ⟨evs, exc⟩
  rw [hsig] at hshape
  simp only at hshape
  rcases exc with _ | e
  · exact ⟨tail, hshape, hcount⟩
  · by_cases hc : innerCaught e
    · simp only [hc, if_pos]
      refine ⟨tail ++ [Ev.log .error "Error processing SSE message"], ?_, ?_⟩
      · rw [hshape]; simp
      · rw [countFetch, List.countP_append]
        rw [countFetch] at hcount
        simp [hcount]
    · simp only [hc, if_neg]
      exact ⟨tail, hshape, hcount⟩

theorem processLine_no_marker (s : String) (fo : FetchOutcome) (be : BrokerEnv)
    (cfg : Config) (h : s = "" ∨ ¬pyContains (pyStrip s) markerStr) :
    processLine (.text s) fo be cfg = ([], none) := by
  unfold processLine lineBody
  rcases h with h | h
  · simp [h]
  · by_cases hs : s = ""
    · simp [hs]
    · simp [hs, h]

theorem countSend_sigEvs (fo : FetchOutcome) : countSend (sigEvs fo) = 0 := by
  rw [sigEvs, countSend, List.countP_cons, List.countP_cons]
  have h := countSend_logMap (fetchLatestSpin fo).2
  rw [countSend] at h
  simp [h]

theorem countSend_onSignal_of_none (fo : FetchOutcome) (be : BrokerEnv) (cfg : Config)
    (h : (fetchLatestSpin fo).1 = .ok none) :
    countSend (onSignal fo be cfg).1 = 0 ∧ (onSignal fo be cfg).2 = none := by
  unfold onSignal
  rw [h]
  refine ⟨?_, rfl⟩
  rw [countSend, List.countP_append]
  have h1 := countSend_sigEvs fo
  rw [countSend] at h1
  simp [h1]

theorem countSend_processLine_of_none (l : RawLine) (fo : FetchOutcome)
    (be : BrokerEnv) (cfg : Config) (h : (fetchLatestSpin fo).1 = .ok none) :
    countSend (processLine l fo be cfg).1 = 0 := by
  obtain ⟨hc, hexc⟩ := countSend_onSignal_of_none fo be cfg h
  cases l with
  | badUtf8 =>
    simp [processLine, lineBody, innerCaught, countSend]
  | text s =>
    by_cases hs : s = ""
    · rw [processLine_no_marker s fo be cfg (Or.inl hs)]
      simp [countSend]
    · by_cases hm : pyContains (pyStrip s) markerStr
      · unfold processLine lineBody
        simp only [if_neg hs, if_pos hm]
        rcases hsig : onSignal fo be cfg with ⟨evs, exc⟩
        rw [hsig] at hc hexc
        simp only at hc hexc
        subst hexc
        exact hc
      · rw [processLine_no_marker s fo be cfg (Or.inr hm)]
        simp [countSend]

theorem sendCall_not_mem_sigEvs (fo : FetchOutcome) (r : Json) :
    Ev.sendCall r ∉ sigEvs fo := by
  intro h
  rw [sigEvs] at h
  simp only [List.mem_cons, List.mem_map] at h
  rcases h with h | h | ⟨l, _, h⟩ <;> simp at h

theorem sendCall_onSignal_truthy (fo : FetchOutcome) (be : BrokerEnv) (cfg : Config)
    (r : Json) (h : Ev.sendCall r ∈ (onSignal fo be cfg).1) : r.truthy = true := by
  unfold onSignal at h
  rcases hfr : (fetchLatestSpin fo).1 with e | v <;> rw [hfr] at h
  · exact absurd h (sendCall_not_mem_sigEvs fo r)
  · rcases v with _ | v
    · rw [List.mem_append] at h
      rcases h with h | h
      · exact absurd h (sendCall_not_mem_sigEvs fo r)
      · simp at h
    · by_cases hv : v.truthy
      · simp only [hv, if_pos] at h
        rw [List.mem_append, List.mem_cons] at h
        rcases h with h | h | h
        · exact absurd h (sendCall_not_mem_sigEvs fo r)
        · cases h; exact hv
        · exact absurd h (sendCall_not_mem_send be cfg v r)
      · simp only [hv, if_neg, Bool.false_eq_true, not_false_iff] at h
        rw [List.mem_append] at h
        rcases h with h | h
        · exact absurd h (sendCall_not_mem_sigEvs fo r)
        · simp at h

theorem sendCall_processLine_truthy (l : RawLine) (fo : FetchOutcome) (be : BrokerEnv)
    (cfg : Config) (r : Json) (h : Ev.sendCall r ∈ (processLine l fo be cfg).1) :
    r.truthy = true := by
  have hlb : Ev.sendCall r ∈ (lineBody l fo be cfg).1 := by
    unfold processLine at h
    rcases hb : lineBody l fo be cfg with ⟨evs, exc⟩
    rw [hb] at h
    rcases exc with _ | e
    · exact h
    · by_cases hc : innerCaught e
      · simp only [hc, if_pos] at h
        rw [List.mem_append] at h
        rcases h with h | h
        · exact h
        · simp at h
      · simp only [hc, Bool.false_eq_true, if_neg, not_false_iff] at h
        exact h
  unfold lineBody at hlb
  cases l with
  | badUtf8 => simp at hlb
  | text s =>
    by_cases hs : s = ""
    · simp [hs] at hlb
    · by_cases hm : pyContains (pyStrip s) markerStr
      · simp only [if_neg hs, if_pos hm] at hlb
        exact sendCall_onSignal_truthy fo be cfg r hlb
      · simp [hs, hm] at hlb

theorem sessionEv_of_pubEv (e : Ev) (h : pubEv e = true) : sessionEv e = true := by
  cases e <;> simp_all [pubEv, sessionEv]

theorem onSignal_events (fo : FetchOutcome) (be : BrokerEnv) (cfg : Config) :
    ∀ e ∈ (onSignal fo be cfg).1, sessionEv e = true := by
  intro e he
  unfold onSignal at he
  have hsig : ∀ x ∈ sigEvs fo, sessionEv x = true := by
    intro x hx
    rw [sigEvs] at hx
    simp only [List.mem_cons, List.mem_map] at hx
    rcases hx with rfl | rfl | ⟨l, _, rfl⟩ <;> rfl
  rcases hfr : (fetchLatestSpin fo).1 with e2 | v <;> rw [hfr] at he
  · exact hsig e he
  · rcases v with _ | v
    · rw [List.mem_append] at he
      rcases he with he | he
      · exact hsig e he
      · simp only [List.mem_singleton] at he
        subst he; rfl
    · by_cases hv : v.truthy
      · simp only [hv, if_pos] at he
        rw [List.mem_append, List.mem_cons] at he
        rcases he with he | he | he
        · exact hsig e he
        · subst he; rfl
        · exact sessionEv_of_pubEv e (send_events be cfg v e he)
      · simp only [hv, Bool.false_eq_true, if_neg, not_false_iff] at he
        rw [List.mem_append] at he
        rcases he with he | he
        · exact hsig e he
        · simp only [List.mem_singleton] at he
          subst he; rfl

theorem processLine_events (l : RawLine) (fo : FetchOutcome) (be : BrokerEnv)
    (cfg : Config) : ∀ e ∈ (processLine l fo be cfg).1, sessionEv e = true := by
  intro e he
  have hlb : ∀ x ∈ (lineBody l fo be cfg).1, sessionEv x = true := by
    intro x hx
    unfold lineBody at hx
    cases l with
    | badUtf8 => simp at hx
    | text s =>
      by_cases hs : s = ""
      · simp [hs] at hx
      · by_cases hm : pyContains (pyStrip s) markerStr
        · simp only [if_neg hs, if_pos hm] at hx
          exact onSignal_events fo be cfg x hx
        · simp [hs, hm] at hx
  unfold processLine at he
  rcases hb : lineBody l fo be cfg with ⟨evs, exc⟩
  rw [hb] at he hlb
  rcases exc with _ | e2
  · exact hlb e he
  · by_cases hc : innerCaught e2
    · simp only [hc, if_pos] at he
      rw [List.mem_append] at he
      rcases he with he | he
      · exact hlb e he
      · simp only [List.mem_singleton] at he
        subst he; rfl
    · simp only [hc, Bool.false_eq_true, if_neg, not_false_iff] at he
      exact hlb e he

theorem processLines_events (cfg : Config) :
    ∀ (lines : List RawLine) (F : Nat → FetchOutcome) (B : Nat → BrokerEnv)
      (i fi pi : Nat), ∀ e ∈ (processLines cfg lines F B i fi pi).1, sessionEv e = true := by
  intro lines
  induction lines with
  | nil => intro F B i fi pi e he; simp [processLines] at he
  | cons l ls ih =>
    intro F B i fi pi e he
    rw [processLines] at he
    rcases hpl : processLine l (F fi) (B pi) cfg with ⟨evs, exc⟩
    rw [hpl] at he
    have hev : ∀ x ∈ evs, sessionEv x = true := by
      intro x hx
      have := processLine_events l (F fi) (B pi) cfg x
      rw [hpl] at this
      exact this hx
    rcases exc with _ | e2
    · simp only [List.cons_append, List.mem_cons, List.mem_append] at he
      rcases he with rfl | he | he
      · rfl
      · exact hev e he
      · exact ih _ _ _ _ _ e he
    · simp only [List.mem_cons] at he
      rcases he with rfl | he
      · rfl
      · exact hev e he

/-! ### Continuity helpers -/

theorem contains_ne_empty (s : String) (h : pyContains s markerStr) : ¬s = "" := by
  intro he
  subst he
  have h2 : markerStr.data = ([] : List Char) := List.eq_nil_of_infix_nil h
  simp [markerStr] at h2

theorem readLine_self_mem (cfg : Config) (l : RawLine) (ls : List RawLine)
    (F : Nat → FetchOutcome) (B : Nat → BrokerEnv) (i fi pi : Nat) :
    Ev.readLine i ∈ (processLines cfg (l :: ls) F B i fi pi).1 := by
  rw [processLines]
  rcases processLine l (F fi) (B pi) cfg with ⟨evs, exc⟩
  rcases exc with _ | e <;> simp

theorem processLines_cons_none (cfg : Config) (l : RawLine) (ls : List RawLine)
    (F : Nat → FetchOutcome) (B : Nat → BrokerEnv) (i fi pi : Nat)
    (h : (processLine l (F fi) (B pi) cfg).2 = none) :
    processLines cfg (l :: ls) F B i fi pi =
      (Ev.readLine i :: (processLine l (F fi) (B pi) cfg).1 ++
        (processLines cfg ls F B (i + 1)
          (fi + countFetch (processLine l (F fi) (B pi) cfg).1)
          (pi + countSend (processLine l (F fi) (B pi) cfg).1)).1,
       (processLines cfg ls F B (i + 1)
          (fi + countFetch (processLine l (F fi) (B pi) cfg).1)
          (pi + countSend (processLine l (F fi) (B pi) cfg).1)).2) := by
  rw [processLines]
  rcases hpl : processLine l (F fi) (B pi) cfg with ⟨evs, exc⟩
  rw [hpl] at h
  simp only at h
  subst h
  rfl

theorem readLine_next_mem (cfg : Config) (l l2 : RawLine) (ls : List RawLine)
    (F : Nat → FetchOutcome) (B : Nat → BrokerEnv) (i fi pi : Nat)
    (h : (processLine l (F fi) (B pi) cfg).2 = none) :
    Ev.readLine (i + 1) ∈ (processLines cfg (l :: l2 :: ls) F B i fi pi).1 := by
  rw [processLines_cons_none cfg l (l2 :: ls) F B i fi pi h]
  refine List.mem_cons_of_mem _ (List.mem_append_right _ ?_)
  exact readLine_self_mem cfg l2 ls F B (i + 1)
    (fi + countFetch (processLine l (F fi) (B pi) cfg).1)
    (pi + countSend (processLine l (F fi) (B pi) cfg).1)

theorem fetch_spin0 (v : Json) (hv : v.truthy = true) :
    fetchLatestSpin (.response 200 (.ok (.obj [("spin-0", v)]))) =
      (.ok (some v), [⟨.info, "Latest spin"⟩]) := by
  simp [fetchLatestSpin, pyDictGet, lookupField, hv]

theorem processLine_fetch_error (s : String) (fo : FetchOutcome) (be : BrokerEnv)
    (cfg : Config) (e : PyExc) (hs : ¬s = "") (hm : pyContains (pyStrip s) markerStr)
    (he : (fetchLatestSpin fo).1 = .error e) (hc : innerCaught e = true) :
    processLine (.text s) fo be cfg =
      (sigEvs fo ++ [Ev.log .error "Error processing SSE message"], none) := by
  unfold processLine lineBody onSignal
  simp [hs, hm, he, hc]

theorem processLine_exc_none_of_send_none (s : String) (fo : FetchOutcome)
    (be : BrokerEnv) (cfg : Config) (v : Json) (hs : ¬s = "")
    (hm : pyContains (pyStrip s) markerStr)
    (hv : (fetchLatestSpin fo).1 = .ok (some v)) (hvt : v.truthy = true)
    (hsend : (sendToRabbitmq be cfg v).2 = none) :
    (processLine (.text s) fo be cfg).2 = none := by
  unfold processLine lineBody onSignal
  simp [hs, hm, hv, hvt, hsend]

theorem sendCall_processLines_truthy (cfg : Config) :
    ∀ (lines : List RawLine) (F : Nat → FetchOutcome) (B : Nat → BrokerEnv)
      (i fi pi : Nat) (r : Json),
      Ev.sendCall r ∈ (processLines cfg lines F B i fi pi).1 → r.truthy = true := by
  intro lines
  induction lines with
  | nil => intro F B i fi pi r h; simp [processLines] at h
  | cons l ls ih =>
    intro F B i fi pi r h
    rw [processLines] at h
    rcases hpl : processLine l (F fi) (B pi) cfg with ⟨evs, exc⟩
    rw [hpl] at h
    have hev : Ev.sendCall r ∈ evs → r.truthy = true := by
      intro hx
      have := sendCall_processLine_truthy l (F fi) (B pi) cfg r
      rw [hpl] at this
      exact this hx
    rcases exc with _ | e2
    · simp only [List.cons_append, List.mem_cons, List.mem_append] at h
      rcases h with h | h | h
      · simp at h
      · exact hev h
      · exact ih _ _ _ _ _ r h
    · simp only [List.mem_cons] at h
      rcases h with h | h
      · simp at h
      · exact hev h

/-! ### Helpers about the publisher's failure handling -/

theorem send_fail_caught (be : BrokerEnv) (cfg : Config) (r : Json) (e : PyExc)
    (hf : firstFailure be = some e) (hc : pubCaught e = true) :
    (sendToRabbitmq be cfg r).2 = none ∧
    Ev.log .critical "Error publishing to RabbitMQ" ∈ (sendToRabbitmq be cfg r).1 ∧
    ∀ b ex rk, Ev.published b ex rk ∉ (sendToRabbitmq be cfg r).1 := by
  rcases be with ⟨c, o, d, p⟩
  unfold firstFailure at hf
  unfold sendToRabbitmq
  cases c <;> cases o <;> cases d <;> cases p <;>
    simp_all [List.mem_append]

theorem connClosed_iff (be : BrokerEnv) (cfg : Config) (r : Json) :
    Ev.connClosed ∈ (sendToRabbitmq be cfg r).1 ↔
      be.connect = none ∧ be.openChannel = none ∧ be.declareEx = none ∧
        be.publish = none := by
  rcases be with ⟨c, o, d, p⟩
  unfold sendToRabbitmq
  cases c <;> cases o <;> cases d <;> cases p <;> (try dsimp only) <;> (try split) <;>
    simp_all [List.mem_append]

/-! ### Helpers about the supervisor loop -/

theorem handleOuter_logs (e : PyExc) :
    ∀ x ∈ handleOuter e, sessionEv x = true ∧
      (match x with | .sleep _ => False | .connectAttempt => False | _ => True) := by
  cases e <;> intro x hx <;> simp [handleOuter] at hx <;> subst hx <;> exact ⟨rfl, trivial⟩

theorem sleepEvs_nil_of_session (l : List Ev) (h : ∀ e ∈ l, sessionEv e = true) :
    sleepEvs l = [] := by
  rw [sleepEvs, List.filter_eq_nil_iff]
  intro a ha
  have := h a ha
  cases a <;> simp_all [sessionEv]

theorem countConnect_nil_of_session (l : List Ev) (h : ∀ e ∈ l, sessionEv e = true) :
    countConnect l = 0 := by
  rw [countConnect, List.countP_eq_zero]
  intro a ha
  have := h a ha
  cases a <;> simp_all [sessionEv]

theorem handleOuter_session (e : PyExc) : ∀ x ∈ handleOuter e, sessionEv x = true := by
  intro x hx
  exact (handleOuter_logs e x hx).1

theorem listenIteration_shape (cfg : Config) (env : SessionEnv) :
    ∃ mid, listenIteration cfg env = Ev.connectAttempt :: mid ++ [Ev.sleep 5] ∧
      sleepEvs mid = [] ∧ countConnect mid = 0 := by
  unfold listenIteration
  rcases env.connect with e | status
  · refine ⟨handleOuter e ++ [Ev.log .info "Reconnecting to SSE stream in 5 seconds..."],
      by simp, ?_, ?_⟩
    · rw [sleepEvs, List.filter_append]
      have h1 := sleepEvs_nil_of_session (handleOuter e) (handleOuter_session e)
      rw [sleepEvs] at h1
      simp [h1]
    · rw [countConnect, List.countP_append]
      have h1 := countConnect_nil_of_session (handleOuter e) (handleOuter_session e)
      rw [countConnect] at h1
      simp [h1]
  · by_cases h200 : status = 200
    · simp only [h200, if_pos]
      rcases hpl : processLines cfg env.lines env.fetches env.brokers 0 0 0 with ⟨evs, exc⟩
      have hevs : ∀ x ∈ evs, sessionEv x = true := by
        intro x hx
        have := processLines_events cfg env.lines env.fetches env.brokers 0 0 0 x
        rw [hpl] at this
        exact this hx
      have hhandler : ∀ x ∈ (match exc with | none => [] | some e => handleOuter e),
          sessionEv x = true := by
        rcases exc with _ | e2
        · intro x hx; simp at hx
        · exact handleOuter_session e2
      refine ⟨Ev.log .info "Connected to SSE stream successfully." ::
        evs ++ (match exc with | none => [] | some e => handleOuter e) ++
        [Ev.log .info "Reconnecting to SSE stream in 5 seconds..."], by simp, ?_, ?_⟩
      · have h1 := sleepEvs_nil_of_session evs hevs
        have h2 := sleepEvs_nil_of_session _ hhandler
        simp only [sleepEvs, List.filter_append, List.filter_cons] at h1 h2 ⊢
        simp [h1, h2]
      · have h1 := countConnect_nil_of_session evs hevs
        have h2 := countConnect_nil_of_session _ hhandler
        simp only [countConnect, List.countP_append, List.countP_cons] at h1 h2 ⊢
        simp [h1, h2]
    · refine ⟨[Ev.log .error "Failed to connect to SSE stream"], by simp [h200], rfl, rfl⟩

/-! ### Claim theorems -/

/-- C2: for every record-retrieval response whose HTTP status is not
200, `fetch_latest_spin` returns `None` and logs a critical-severity
failure, and no `send_to_rabbitmq` call occurs for that signal
(no `sendCall` event is emitted while processing any line under that
fetch outcome). -/
theorem non200_fetch_returns_none_no_publish (status : Nat) (body : Except PyExc Json)
    (l : RawLine) (be : BrokerEnv) (cfg : Config) (hs : status ≠ 200) :
    fetchLatestSpin (.response status body) =
      (.ok none, [⟨.critical, "Failed to fetch spin data"⟩]) ∧
    countSend (processLine l (.response status body) be cfg).1 = 0 := by
  have hf : fetchLatestSpin (.response status body) =
      (.ok none, [⟨.critical, "Failed to fetch spin data"⟩]) := by
    simp [fetchLatestSpin, hs]
  refine ⟨hf, countSend_processLine_of_none l _ be cfg ?_⟩
  rw [hf]

/-- Witness for C2 at a concrete 404 response and a marker-matching line. -/
theorem non200_fetch_returns_none_no_publish_witness :
    (404 ≠ 200) ∧
    (fetchLatestSpin (.response 404 (.ok .null)) =
      (.ok none, [⟨.critical, "Failed to fetch spin data"⟩]) ∧
     countSend (processLine (.text markerStr) (.response 404 (.ok .null)) okBroker0 cfg0).1 = 0) :=
  ⟨by decide,
   non200_fetch_returns_none_no_publish 404 (.ok .null) (.text markerStr) okBroker0 cfg0
     (by decide)⟩

/-- C3: for every 200 response whose JSON object body lacks the
`"spin-0"` field, `fetch_latest_spin` returns `None` and logs a warning,
and no publish call occurs for that signal. -/
theorem missing_spin0_returns_none_no_publish (fields : List (String × Json))
    (l : RawLine) (be : BrokerEnv) (cfg : Config)
    (hm : lookupField fields "spin-0" = none) :
    fetchLatestSpin (.response 200 (.ok (.obj fields))) =
      (.ok none, [⟨.warning, "No latest spin found in response."⟩]) ∧
    countSend (processLine l (.response 200 (.ok (.obj fields))) be cfg).1 = 0 := by
  have hf : fetchLatestSpin (.response 200 (.ok (.obj fields))) =
      (.ok none, [⟨.warning, "No latest spin found in response."⟩]) := by
    simp [fetchLatestSpin, pyDictGet, hm]
  refine ⟨hf, countSend_processLine_of_none l _ be cfg ?_⟩
  rw [hf]

/-- Witness for C3 at a concrete body without `"spin-0"`. -/
theorem missing_spin0_returns_none_no_publish_witness :
    (lookupField [("x", Json.num 1)] "spin-0" = none) ∧
    (fetchLatestSpin (.response 200 (.ok (.obj [("x", Json.num 1)]))) =
      (.ok none, [⟨.warning, "No latest spin found in response."⟩]) ∧
     countSend (processLine (.text markerStr)
       (.response 200 (.ok (.obj [("x", Json.num 1)]))) okBroker0 cfg0).1 = 0) :=
  ⟨by decide,
   missing_spin0_returns_none_no_publish [("x", Json.num 1)] (.text markerStr) okBroker0 cfg0
     (by decide)⟩

/-- C4: for every record passed to the publisher, when all broker steps
succeed the transmitted message body is exactly the UTF-8 encoding of
the JSON serialization of that record, published on the configured
exchange with the configured routing key (and nothing else is sent). -/
theorem publish_payload_utf8_json (r : Json) (cfg : Config) (be : BrokerEnv)
    (h1 : be.connect = none) (h2 : be.openChannel = none)
    (h3 : be.declareEx = none) (h4 : be.publish = none) :
    sendToRabbitmq be cfg r =
      ([.connected, .channelOpened, .exchangeDeclared cfg.exchange true,
        .published (utf8Encode (Json.dumps r)) cfg.exchange cfg.routingKey,
        .log .info "Published spin data to RabbitMQ", .connClosed], none) := by
  rcases be with ⟨c, o, d, p⟩
  simp only at h1 h2 h3 h4
  subst h1; subst h2; subst h3; subst h4
  rfl

/-- Witness for C4 at the spec's sample record
`{"artist": "A", "song": "B"}`: the published body is the explicit UTF-8
byte sequence of its JSON serialization. -/
theorem publish_payload_utf8_json_witness :
    (okBroker0.connect = none ∧ okBroker0.openChannel = none ∧
     okBroker0.declareEx = none ∧ okBroker0.publish = none) ∧
    sendToRabbitmq okBroker0 cfg0 rec0 =
      ([.connected, .channelOpened, .exchangeDeclared "spin-exchange" true,
        .published [123, 34, 97, 114, 116, 105, 115, 116, 34, 58, 32, 34, 65, 34, 44, 32,
          34, 115, 111, 110, 103, 34, 58, 32, 34, 66, 34, 125] "spin-exchange" "spin-key",
        .log .info "Published spin data to RabbitMQ", .connClosed], none) := by
  refine ⟨⟨rfl, rfl, rfl, rfl⟩, ?_⟩
  rw [publish_payload_utf8_json rec0 cfg0 okBroker0 rfl rfl rfl rfl]
  rfl

/-- C6 counterexample: a publish attempt that opens the connection
successfully but whose publish step raises `ChannelClosed` never closes
the connection — `connection.close()` sits inside the `try` after the
publish, so the except path skips it.  This refutes the claim that the
connection is closed regardless of failure. -/
theorem publish_failure_leaks_connection_cx :
    Ev.connected ∈ (sendToRabbitmq failBroker0 cfg0 rec0).1 ∧
    Ev.connClosed ∉ (sendToRabbitmq failBroker0 cfg0 rec0).1 := by decide

/-- C6 amended: the broker connection is closed before `send_to_rabbitmq`
returns exactly when all four broker steps (connect, channel, declare,
publish) succeed; on any failing step the connection is not closed. -/
theorem connection_closed_iff_all_steps_ok (be : BrokerEnv) (cfg : Config) (r : Json) :
    Ev.connClosed ∈ (sendToRabbitmq be cfg r).1 ↔
      be.connect = none ∧ be.openChannel = none ∧ be.declareEx = none ∧
        be.publish = none :=
  connClosed_iff be cfg r

/-- C1: for every line read from the stream, if the decoded line contains
the marker substring then `fetch_latest_spin` is called exactly once and
any `send_to_rabbitmq` call happens only after that fetch (every prefix
of the trace without the fetch contains no send); if the line does not
contain the marker, neither fetch nor send is invoked for that line. -/
theorem marker_line_fetch_once_before_publish (s : String) (fo : FetchOutcome)
    (be : BrokerEnv) (cfg : Config) :
    (pyContains s markerStr →
      countFetch (processLine (.text s) fo be cfg).1 = 1 ∧
      ∀ k, countFetch ((processLine (.text s) fo be cfg).1.take k) = 0 →
        countSend ((processLine (.text s) fo be cfg).1.take k) = 0) ∧
    (¬pyContains s markerStr →
      countFetch (processLine (.text s) fo be cfg).1 = 0 ∧
      countSend (processLine (.text s) fo be cfg).1 = 0) := by
  constructor
  · intro h
    have hs : ¬s = "" := contains_ne_empty s h
    have hm : pyContains (pyStrip s) markerStr := (contains_strip_iff s).mpr h
    obtain ⟨tail, hshape, hcount⟩ := processLine_marker_shape s fo be cfg hs hm
    constructor
    · rw [hshape, countFetch, List.countP_cons, List.countP_cons]
      rw [countFetch] at hcount
      simp [hcount]
    · intro k hk
      rw [hshape] at hk ⊢
      match k with
      | 0 => simp [countSend]
      | 1 => simp [countSend]
      | Nat.succ (Nat.succ k) =>
        exfalso
        rw [List.take_succ_cons, List.take_succ_cons, countFetch,
          List.countP_cons, List.countP_cons] at hk
        simp at hk
  · intro h
    have hor : s = "" ∨ ¬pyContains (pyStrip s) markerStr := by
      by_cases hs : s = ""
      · exact Or.inl hs
      · exact Or.inr (fun hc => h ((contains_strip_iff s).mp hc))
    rw [processLine_no_marker s fo be cfg hor]
    simp [countFetch, countSend]

/-- Witness for C1 at a line consisting of the marker itself. -/
theorem marker_line_fetch_once_before_publish_witness :
    pyContains markerStr markerStr ∧
    (countFetch (processLine (.text markerStr) okFetch0 okBroker0 cfg0).1 = 1 ∧
      ∀ k, countFetch ((processLine (.text markerStr) okFetch0 okBroker0 cfg0).1.take k) = 0 →
        countSend ((processLine (.text markerStr) okFetch0 okBroker0 cfg0).1.take k) = 0) :=
  ⟨List.infix_refl _,
   (marker_line_fetch_once_before_publish markerStr okFetch0 okBroker0 cfg0).1
     (List.infix_refl _)⟩

/-- C9: in every execution of the line loop, `send_to_rabbitmq` is only
ever invoked with a truthy record — never with `None` (`Json.null`) and
never with an empty record (`Json.obj []`). -/
theorem publisher_record_always_truthy (cfg : Config) (lines : List RawLine)
    (F : Nat → FetchOutcome) (B : Nat → BrokerEnv) (i fi pi : Nat) (r : Json)
    (h : Ev.sendCall r ∈ (processLines cfg lines F B i fi pi).1) :
    r.truthy = true ∧ r ≠ Json.null ∧ r ≠ Json.obj [] := by
  have ht := sendCall_processLines_truthy cfg lines F B i fi pi r h
  refine ⟨ht, ?_, ?_⟩
  · intro he; subst he; simp [Json.truthy] at ht
  · intro he; subst he; simp [Json.truthy] at ht

/-- Witness for C9 at a session that actually publishes `rec0`. -/
theorem publisher_record_always_truthy_witness :
    (Ev.sendCall rec0 ∈ (processLines cfg0 [.text markerStr] (fun _ => okFetch0)
      (fun _ => okBroker0) 0 0 0).1) ∧
    (rec0.truthy = true ∧ rec0 ≠ Json.null ∧ rec0 ≠ Json.obj []) :=
  ⟨by decide,
   publisher_record_always_truthy cfg0 [.text markerStr] (fun _ => okFetch0)
     (fun _ => okBroker0) 0 0 0 rec0 (by decide)⟩

/-- C5: every iteration of the supervisor loop — whatever the session's
exit (connection failure, non-200 connect status, stream end, or an
unexpected exception) — sleeps exactly once, for exactly 5 time units,
as its last action, and over any sequence of sessions every session is
followed by a fresh connection attempt (one attempt per iteration, so
the loop never halts permanently). -/
theorem session_exit_constant_retry (cfg : Config) (env : SessionEnv)
    (sessions : List SessionEnv) :
    sleepEvs (listenIteration cfg env) = [Ev.sleep 5] ∧
    (∃ pre, listenIteration cfg env = pre ++ [Ev.sleep 5]) ∧
    countConnect (runListener cfg sessions) = sessions.length := by
  obtain ⟨mid, hsh, hsl, hcc⟩ := listenIteration_shape cfg env
  refine ⟨?_, ⟨Ev.connectAttempt :: mid, by rw [hsh]⟩, ?_⟩
  · rw [hsh]
    simp only [sleepEvs, List.filter_cons, List.filter_append] at hsl ⊢
    simp [hsl]
  · clear hsh hsl hcc mid
    induction sessions with
    | nil => rfl
    | cons env2 rest ih =>
      rw [runListener, countConnect, List.countP_append]
      obtain ⟨mid2, hsh2, _, hcc2⟩ := listenIteration_shape cfg env2
      rw [hsh2]
      simp only [countConnect, List.countP_cons, List.countP_append] at hcc2 ⊢
      rw [countConnect] at ih
      simp [hcc2, ih, Nat.add_comm]

/-- C7 counterexample: a line of non-UTF-8 bytes followed by a valid
marker line.  `bytes.decode("utf-8")` raises `UnicodeDecodeError`, which
the per-line `except (aiohttp.ClientError, json.JSONDecodeError)` does
not catch, so the line loop aborts before the second line: the session
terminates and the valid unit is not processed within it. -/
theorem badutf8_aborts_session_cx :
    processLines cfg0 [.badUtf8, .text markerStr] (fun _ => okFetch0)
      (fun _ => okBroker0) 0 0 0 = ([Ev.readLine 0], some .unicodeDecodeError) ∧
    Ev.readLine 1 ∉ (processLines cfg0 [.badUtf8, .text markerStr] (fun _ => okFetch0)
      (fun _ => okBroker0) 0 0 0).1 ∧
    Ev.fetchCall ∉ (processLines cfg0 [.badUtf8, .text markerStr] (fun _ => okFetch0)
      (fun _ => okBroker0) 0 0 0).1 := by decide

/-- C7 amended: a unit whose processing raises a JSON decode error (the
fetch's `response.json()`) is skipped locally — the per-line handler
logs it and the next unit is processed within the same session; but a
unit that fails UTF-8 text decoding raises `UnicodeDecodeError`, which
the per-line handler does not catch: the session terminates immediately,
the outer `except Exception` handler logs it, and a new session starts
after the fixed 5-unit delay. -/
theorem decode_error_handling (s : String) (l2 : RawLine) (ls : List RawLine)
    (F : Nat → FetchOutcome) (B : Nat → BrokerEnv) (cfg : Config) (i fi pi : Nat)
    (hm : pyContains s markerStr)
    (hF : F fi = .response 200 (.error .jsonDecodeError)) :
    (processLine (.text s) (F fi) (B pi) cfg).2 = none ∧
    Ev.log .error "Error processing SSE message" ∈
      (processLine (.text s) (F fi) (B pi) cfg).1 ∧
    Ev.readLine (i + 1) ∈ (processLines cfg (.text s :: l2 :: ls) F B i fi pi).1 ∧
    (∀ (ls2 : List RawLine) (i2 fi2 pi2 : Nat),
      processLines cfg (.badUtf8 :: ls2) F B i2 fi2 pi2 =
        ([Ev.readLine i2], some .unicodeDecodeError)) ∧
    (∀ (env : SessionEnv), env.connect = .ok 200 → env.lines = .badUtf8 :: ls →
      listenIteration cfg env =
        [Ev.connectAttempt, Ev.log .info "Connected to SSE stream successfully.",
         Ev.readLine 0, Ev.log .error "Unexpected exception",
         Ev.log .info "Reconnecting to SSE stream in 5 seconds...", Ev.sleep 5]) := by
  have hs := contains_ne_empty s hm
  have hm2 := (contains_strip_iff s).mpr hm
  have herr : (fetchLatestSpin (F fi)).1 = .error .jsonDecodeError := by
    rw [hF]; rfl
  have hpl := processLine_fetch_error s (F fi) (B pi) cfg .jsonDecodeError hs hm2 herr rfl
  have hnone : (processLine (.text s) (F fi) (B pi) cfg).2 = none := by
    rw [hpl]
  have habort : ∀ (G : Nat → FetchOutcome) (C : Nat → BrokerEnv)
      (ls2 : List RawLine) (i2 fi2 pi2 : Nat),
      processLines cfg (.badUtf8 :: ls2) G C i2 fi2 pi2 =
        ([Ev.readLine i2], some .unicodeDecodeError) := by
    intro G C ls2 i2 fi2 pi2
    rw [processLines]
    rfl
  refine ⟨hnone, ?_, readLine_next_mem cfg _ l2 ls F B i fi pi hnone,
    fun ls2 i2 fi2 pi2 => habort F B ls2 i2 fi2 pi2, ?_⟩
  · rw [hpl]
    simp
  · intro env hconn hlines
    unfold listenIteration
    rw [hconn, hlines]
    simp only [if_pos rfl]
    rw [habort env.fetches env.brokers ls 0 0 0]
    rfl

/-- Witness for C7's amended theorem: the marker line itself, a fetch
whose body fails JSON decoding, and a concrete badUtf8-headed session. -/
theorem decode_error_handling_witness :
    pyContains markerStr markerStr ∧
    ((fun _ : Nat => FetchOutcome.response 200 (.error .jsonDecodeError)) 0 =
      FetchOutcome.response 200 (.error .jsonDecodeError)) ∧
    ((processLine (.text markerStr)
        ((fun _ : Nat => FetchOutcome.response 200 (.error .jsonDecodeError)) 0)
        ((fun _ : Nat => okBroker0) 0) cfg0).2 = none ∧
     Ev.log .error "Error processing SSE message" ∈
       (processLine (.text markerStr)
         ((fun _ : Nat => FetchOutcome.response 200 (.error .jsonDecodeError)) 0)
         ((fun _ : Nat => okBroker0) 0) cfg0).1 ∧
     Ev.readLine 1 ∈ (processLines cfg0 [.text markerStr, .text markerStr]
       (fun _ => FetchOutcome.response 200 (.error .jsonDecodeError))
       (fun _ => okBroker0) 0 0 0).1 ∧
     (∀ (ls2 : List RawLine) (i2 fi2 pi2 : Nat),
       processLines cfg0 (.badUtf8 :: ls2)
         (fun _ => FetchOutcome.response 200 (.error .jsonDecodeError))
         (fun _ => okBroker0) i2 fi2 pi2 =
         ([Ev.readLine i2], some .unicodeDecodeError)) ∧
     (∀ (env : SessionEnv), env.connect = .ok 200 → env.lines = [.badUtf8] →
       listenIteration cfg0 env =
         [Ev.connectAttempt, Ev.log .info "Connected to SSE stream successfully.",
          Ev.readLine 0, Ev.log .error "Unexpected exception",
          Ev.log .info "Reconnecting to SSE stream in 5 seconds...", Ev.sleep 5])) :=
  ⟨List.infix_refl _, rfl,
   decode_error_handling markerStr (.text markerStr) []
     (fun _ => FetchOutcome.response 200 (.error .jsonDecodeError))
     (fun _ => okBroker0) cfg0 0 0 0 (List.infix_refl _) rfl⟩

/-- C8: a publish attempt whose first failing broker step raises one of
the caught delivery failures (`AMQPConnectionError` or `ChannelClosed`)
is caught inside `send_to_rabbitmq` and logged at critical severity, the
record is discarded (nothing is published, and no retry occurs — the
call returns without raising), and the listener goes on to read the next
line of the same stream session. -/
theorem publish_failure_caught_continues (be : BrokerEnv) (cfg : Config) (r : Json)
    (e : PyExc) (hf : firstFailure be = some e) (hc : pubCaught e = true) :
    (sendToRabbitmq be cfg r).2 = none ∧
    Ev.log .critical "Error publishing to RabbitMQ" ∈ (sendToRabbitmq be cfg r).1 ∧
    (∀ b ex rk, Ev.published b ex rk ∉ (sendToRabbitmq be cfg r).1) ∧
    ∀ (s : String) (v : Json) (l2 : RawLine) (ls : List RawLine)
      (F : Nat → FetchOutcome) (i fi pi : Nat),
      pyContains s markerStr → v.truthy = true →
      F fi = .response 200 (.ok (.obj [("spin-0", v)])) →
      Ev.readLine (i + 1) ∈
        (processLines cfg (.text s :: l2 :: ls) F (fun _ => be) i fi pi).1 := by
  obtain ⟨h1, h2, h3⟩ := send_fail_caught be cfg r e hf hc
  refine ⟨h1, h2, h3, ?_⟩
  intro s v l2 ls F i fi pi hm hvt hF
  apply readLine_next_mem
  have hs := contains_ne_empty s hm
  have hm2 := (contains_strip_iff s).mpr hm
  have hv : (fetchLatestSpin (F fi)).1 = .ok (some v) := by
    rw [hF, fetch_spin0 v hvt]
  exact processLine_exc_none_of_send_none s (F fi) be cfg v hs hm2 hv hvt
    (send_fail_caught be cfg v e hf hc).1

/-- Witness for C8 at a broker whose publish step raises `ChannelClosed`
and a two-signal session. -/
theorem publish_failure_caught_continues_witness :
    (firstFailure failBroker0 = some .channelClosed ∧ pubCaught .channelClosed = true) ∧
    ((sendToRabbitmq failBroker0 cfg0 rec0).2 = none ∧
     Ev.log .critical "Error publishing to RabbitMQ" ∈
       (sendToRabbitmq failBroker0 cfg0 rec0).1 ∧
     (∀ b ex rk, Ev.published b ex rk ∉ (sendToRabbitmq failBroker0 cfg0 rec0).1) ∧
     ∀ (s : String) (v : Json) (l2 : RawLine) (ls : List RawLine)
       (F : Nat → FetchOutcome) (i fi pi : Nat),
       pyContains s markerStr → v.truthy = true →
       F fi = .response 200 (.ok (.obj [("spin-0", v)])) →
       Ev.readLine (i + 1) ∈
         (processLines cfg0 (.text s :: l2 :: ls) F (fun _ => failBroker0) i fi pi).1) :=
  ⟨⟨rfl, rfl⟩, publish_failure_caught_continues failBroker0 cfg0 rec0 .channelClosed rfl rfl⟩

/-- C10: a signal whose fetch raises a transport-level
`aiohttp.ClientError` is caught by the per-line handler: no exception
escapes the line's processing (it is logged at error severity when the
line matched the marker), the session is not aborted, and the listener
reads the next line of the same open stream. -/
theorem fetch_client_error_caught_continues (s : String) (l2 : RawLine)
    (ls : List RawLine) (F : Nat → FetchOutcome) (B : Nat → BrokerEnv)
    (cfg : Config) (i fi pi : Nat) (hF : F fi = .httpError) :
    (processLine (.text s) (F fi) (B pi) cfg).2 = none ∧
    (pyContains s markerStr →
      Ev.log .error "Error processing SSE message" ∈
        (processLine (.text s) (F fi) (B pi) cfg).1) ∧
    Ev.readLine (i + 1) ∈ (processLines cfg (.text s :: l2 :: ls) F B i fi pi).1 := by
  have hnone : (processLine (.text s) (F fi) (B pi) cfg).2 = none := by
    by_cases hs : s = ""
    · rw [processLine_no_marker s (F fi) (B pi) cfg (Or.inl hs)]
    · by_cases hm : pyContains (pyStrip s) markerStr
      · rw [processLine_fetch_error s (F fi) (B pi) cfg .clientError hs hm
          (by rw [hF]; rfl) rfl]
      · rw [processLine_no_marker s (F fi) (B pi) cfg (Or.inr hm)]
  refine ⟨hnone, ?_, readLine_next_mem cfg _ l2 ls F B i fi pi hnone⟩
  intro hm
  have hs := contains_ne_empty s hm
  have hm2 := (contains_strip_iff s).mpr hm
  rw [processLine_fetch_error s (F fi) (B pi) cfg .clientError hs hm2
    (by rw [hF]; rfl) rfl]
  simp

/-- Witness for C10 at a marker line whose fetch raises `ClientError`. -/
theorem fetch_client_error_caught_continues_witness :
    ((fun _ : Nat => FetchOutcome.httpError) 0 = FetchOutcome.httpError) ∧
    ((processLine (.text markerStr) ((fun _ : Nat => FetchOutcome.httpError) 0)
        ((fun _ : Nat => okBroker0) 0) cfg0).2 = none ∧
     (pyContains markerStr markerStr →
       Ev.log .error "Error processing SSE message" ∈
         (processLine (.text markerStr) ((fun _ : Nat => FetchOutcome.httpError) 0)
           ((fun _ : Nat => okBroker0) 0) cfg0).1) ∧
     Ev.readLine 1 ∈ (processLines cfg0 [.text markerStr, .text markerStr]
       (fun _ => FetchOutcome.httpError) (fun _ => okBroker0) 0 0 0).1) :=
  ⟨rfl,
   fetch_client_error_caught_continues markerStr (.text markerStr) []
     (fun _ => FetchOutcome.httpError) (fun _ => okBroker0) cfg0 0 0 0 rfl⟩

end Watchdog
